import Mathlib

/-!
Verification development for the IB-graph-server repository.

We give a shallow embedding of the core logic of `src/typedb_client.py` and
`src/typeql_template_driver.py`:

* Python dicts built by keyed comprehensions are modelled as insertion-ordered
  association lists (`upsert` / `keyedBy`): a repeated key overwrites the value
  in place, a fresh key is appended.
* The diff synchronizer `TypeDBClient.update_graph` is modelled as a pure
  function from the persisted graph and the desired graph to the list of
  client calls it emits, in emission order (`updateGraphTrace`).
* Numeric positions (`pos_x`, `pos_y`) are modelled as exact integers; the
  code compares them with plain value equality after a `float(...)` coercion,
  and no claim depends on floating-point rounding.
* Ids are modelled as strings: the code coerces every id with `str(...)`
  before indexing or comparing.
* Fallible operations return `Except`; engine interaction is modelled by
  explicit oracles (booleans saying whether each engine step succeeds) plus an
  event trace.
-/

namespace IBGraph

/-! ### Insertion-ordered association lists (Python dict semantics) -/

/-- Python `d[k] = v` on an insertion-ordered dict: overwrite in place or append. -/
def upsert {α : Type} (l : List (String × α)) (k : String) (v : α) :
    List (String × α) :=
  if l.any (fun p => p.1 == k) then
    l.map (fun p => if p.1 == k then (k, v) else p)
  else l ++ [(k, v)]

/-- Python `{f x: x for x in xs}` — dict comprehension keyed by `f`. -/
def keyedBy {α : Type} (f : α → String) (xs : List α) : List (String × α) :=
  xs.foldl (fun acc x => upsert acc (f x) x) []

/-- Python `d.get(k)` — the first (hence unique) binding of `k`. -/
def lookup {α : Type} (l : List (String × α)) (k : String) : Option α :=
  (l.find? (fun p => p.1 == k)).map (fun p => p.2)

/-- Python `k in d`. -/
def hasKey {α : Type} (l : List (String × α)) (k : String) : Bool :=
  l.any (fun p => p.1 == k)

/-! ### Graph data model (`src/graph_models.py` and persisted documents) -/

/-- A node of the persisted graph document returned by `graph-by-version-get`.
Field access in `update_graph` goes through `dict.get`, so attribute fields
other than the id are optional; numeric positions are compared after a
`float(...)` coercion, modelled here as exact integers. -/
structure DbNode where
  node_id : String
  name : Option String
  pos_x : Int
  pos_y : Int
  picture_path : Option String
  description : Option String
  node_type : Option String
deriving DecidableEq, Repr

/-- Desired node from the client (`NodeDTO` in `graph_models.py`): `node_id`,
`name`, `pos_x`, `pos_y` are required, `node_type`, `picture_path`,
`description` optional. `node_id` is kept in its `str(...)` form. -/
structure NodeDTO where
  node_id : String
  name : String
  pos_x : Int
  pos_y : Int
  node_type : Option String
  picture_path : Option String
  description : Option String
deriving DecidableEq, Repr

/-- A persisted edge; endpoints are kept in their `str(...)` form. -/
structure DbEdge where
  edge_id : String
  node1 : String
  node2 : String
  description : Option String
deriving DecidableEq, Repr

/-- Desired edge from the client (`EdgeDTO`). -/
structure EdgeDTO where
  edge_id : String
  node1 : String
  node2 : String
  description : Option String
deriving DecidableEq, Repr

/-- One call emitted by `update_graph` on the TypeDB client. -/
inductive Call where
  | nodeDelete (node_id : String)
  | nodeCreate (node_id : String) (name : String) (pos_x pos_y : Int)
      (picture_path description : Option String)
  | nodeUpdate (node_id : String) (name : String) (pos_x pos_y : Int)
      (picture_path description : Option String)
  | edgeDelete (edge_id : String)
  | edgeCreate (edge_id node1_id node2_id : String) (description : Option String)
  | edgeUpdate (edge_id : String) (description : Option String)
deriving DecidableEq, Repr

/-- The `need_update` comparison of `update_graph` (nodes present on both
sides): compares `name`, `pos_x`, `pos_y`, `picture_path`, `description` —
and nothing else (in particular not `node_type`). -/
def nodeNeedsUpdate (dbn : DbNode) (dto : NodeDTO) : Bool :=
  dbn.name != some dto.name || dbn.pos_x != dto.pos_x || dbn.pos_y != dto.pos_y
    || dbn.picture_path != dto.picture_path || dbn.description != dto.description

/-- Calls emitted for an edge id present on both sides: endpoints changed →
delete then recreate under the same id; only description changed → lightweight
update; otherwise nothing. -/
def edgeSyncCalls (k : String) (dbe : DbEdge) (dto : EdgeDTO) : List Call :=
  if dbe.node1 != dto.node1 || dbe.node2 != dto.node2 then
    [Call.edgeDelete k, Call.edgeCreate k dto.node1 dto.node2 dto.description]
  else if dbe.description != dto.description then
    [Call.edgeUpdate k dto.description]
  else []

/-- Phase 1: delete persisted nodes absent from the desired set. -/
def nodeDeletePhase (dbN : List (String × DbNode)) (newN : List (String × NodeDTO)) :
    List Call :=
  (dbN.filter (fun p => !(hasKey newN p.1))).map (fun p => Call.nodeDelete p.1)

/-- Phase 2: create desired nodes absent from the persisted set. -/
def nodeCreatePhase (dbN : List (String × DbNode)) (newN : List (String × NodeDTO)) :
    List Call :=
  (newN.filter (fun p => !(hasKey dbN p.1))).map (fun p =>
    Call.nodeCreate p.1 p.2.name p.2.pos_x p.2.pos_y p.2.picture_path p.2.description)

/-- Phase 3: update nodes present on both sides whose compared fields differ. -/
def nodeUpdatePhase (dbN : List (String × DbNode)) (newN : List (String × NodeDTO)) :
    List Call :=
  dbN.filterMap (fun p =>
    match lookup newN p.1 with
    | none => none
    | some dto =>
      if nodeNeedsUpdate p.2 dto then
        some (Call.nodeUpdate p.1 dto.name dto.pos_x dto.pos_y
          dto.picture_path dto.description)
      else none)

/-- Phase 4: delete persisted edges absent from the desired set. -/
def edgeDeletePhase (dbE : List (String × DbEdge)) (newE : List (String × EdgeDTO)) :
    List Call :=
  (dbE.filter (fun p => !(hasKey newE p.1))).map (fun p => Call.edgeDelete p.1)

/-- Phase 5: create desired edges absent from the persisted set. -/
def edgeCreatePhase (dbE : List (String × DbEdge)) (newE : List (String × EdgeDTO)) :
    List Call :=
  (newE.filter (fun p => !(hasKey dbE p.1))).map (fun p =>
    Call.edgeCreate p.1 p.2.node1 p.2.node2 p.2.description)

/-- Phase 6: reconcile edges present on both sides. -/
def edgeUpdatePhase (dbE : List (String × DbEdge)) (newE : List (String × EdgeDTO)) :
    List Call :=
  dbE.flatMap (fun p =>
    match lookup newE p.1 with
    | none => []
    | some dto => edgeSyncCalls p.1 p.2 dto)

/-- The sequence of client calls emitted by `TypeDBClient.update_graph`, given
the persisted graph (`dbNodes`, `dbEdges`, as fetched by
`graph_by_version_get`) and the desired graph (`nodes`, `edges`). -/
def updateGraphTrace (dbNodes : List DbNode) (dbEdges : List DbEdge)
    (nodes : List NodeDTO) (edges : List EdgeDTO) : List Call :=
  nodeDeletePhase (keyedBy DbNode.node_id dbNodes) (keyedBy NodeDTO.node_id nodes)
    ++ nodeCreatePhase (keyedBy DbNode.node_id dbNodes) (keyedBy NodeDTO.node_id nodes)
    ++ nodeUpdatePhase (keyedBy DbNode.node_id dbNodes) (keyedBy NodeDTO.node_id nodes)
    ++ edgeDeletePhase (keyedBy DbEdge.edge_id dbEdges) (keyedBy EdgeDTO.edge_id edges)
    ++ edgeCreatePhase (keyedBy DbEdge.edge_id dbEdges) (keyedBy EdgeDTO.edge_id edges)
    ++ edgeUpdatePhase (keyedBy DbEdge.edge_id dbEdges) (keyedBy EdgeDTO.edge_id edges)

/-- The phase rank of a call kind, in the order claimed by the spec:
node deletions, node creations, node updates, edge deletions, edge creations,
edge updates. -/
def rank : Call → Nat
  | .nodeDelete _ => 0
  | .nodeCreate _ _ _ _ _ _ => 1
  | .nodeUpdate _ _ _ _ _ _ => 2
  | .edgeDelete _ => 3
  | .edgeCreate _ _ _ _ => 4
  | .edgeUpdate _ _ => 5

/-- A trace is phase-ordered when call kinds appear in nondecreasing rank:
no call of an earlier phase occurs after a call of a later phase. -/
def phaseOrdered (t : List Call) : Prop :=
  t.Pairwise (fun a b => rank a ≤ rank b)

instance : DecidablePred phaseOrdered := fun t =>
  inferInstanceAs (Decidable (t.Pairwise _))

/-! ### Client errors (`src/typedb_client.py`) -/

/-- The client's own exception hierarchy (all derive from `TypeDBClientError`). -/
inductive ClientErr where
  | typeDBClientError (msg : String)
  | templateProcessingError (msg : String)
  | queryExecutionError (msg : String)
  | activeVersionError (msg : String)
  | operationIsNotAllowed (msg : String)
deriving DecidableEq, Repr

/-- An exception escaping a client method: one of the client's error classes,
or an interpreter-level `NameError` (evaluation of an unbound local name). -/
inductive PyErr where
  | client (e : ClientErr)
  | nameError (ident : String)
deriving DecidableEq, Repr

/-! ### Version resolution (`TypeDBClient._resolve_version`) -/

/-- Models `_resolve_version(version)`: an explicit version wins; otherwise the cached
`active_version` is used; if neither exists, `ActiveVersionError`. -/
def resolveVersion (explicit : Option String) (cached : Option String) :
    Except ClientErr String :=
  match explicit with
  | some v => .ok v
  | none =>
    match cached with
    | none => .error (.activeVersionError
        "Active version is not set and no explicit version was provided.")
    | some v => .ok v

/-! ### Transaction lifecycle (`transaction`, `_execute_write`, `_execute_read`) -/

/-- Oracle describing how the engine behaves during one transaction: whether
opening, querying, committing and closing succeed. -/
structure TxBehavior where
  openOk : Bool
  queryOk : Bool
  commitOk : Bool
  closeOk : Bool
deriving DecidableEq, Repr

/-- One engine interaction during a transaction, with its outcome. -/
inductive TxEvent where
  | openTx (ok : Bool)
  | queryTx (ok : Bool)
  | commitTx (ok : Bool)
  | closeTx (ok : Bool)
deriving DecidableEq, Repr

/-- Models `_execute_write`: open a WRITE transaction inside the `transaction` context
manager, run the query, commit; the context manager closes the transaction in
a `finally` block and swallows close failures; every failure is re-raised as
`QueryExecutionError`. The returned list is the event trace in order. -/
def executeWrite (opName : String) (b : TxBehavior) :
    Except ClientErr Unit × List TxEvent :=
  if !b.openOk then
    (.error (.queryExecutionError ("Failed to execute write operation " ++ opName ++ ".")),
      [.openTx false])
  else if !b.queryOk then
    (.error (.queryExecutionError ("Failed to execute write operation " ++ opName ++ ".")),
      [.openTx true, .queryTx false, .closeTx b.closeOk])
  else if !b.commitOk then
    (.error (.queryExecutionError ("Failed to execute write operation " ++ opName ++ ".")),
      [.openTx true, .queryTx true, .commitTx false, .closeTx b.closeOk])
  else
    (.ok (), [.openTx true, .queryTx true, .commitTx true, .closeTx b.closeOk])

/-- Models `_execute_read`: same lifecycle as `_execute_write` but without a commit;
on success the documents (`docs`) are materialized inside the transaction and
returned. -/
def executeRead {α : Type} (opName : String) (b : TxBehavior) (docs : List α) :
    Except ClientErr (List α) × List TxEvent :=
  if !b.openOk then
    (.error (.queryExecutionError ("Failed to execute read operation " ++ opName ++ ".")),
      [.openTx false])
  else if !b.queryOk then
    (.error (.queryExecutionError ("Failed to execute read operation " ++ opName ++ ".")),
      [.openTx true, .queryTx false, .closeTx b.closeOk])
  else
    (.ok docs, [.openTx true, .queryTx true, .closeTx b.closeOk])

/-- Number of successfully opened transactions in an event trace. -/
def openCount (t : List TxEvent) : Nat :=
  (t.filter (fun e => match e with | .openTx true => true | _ => false)).length

/-- Number of close attempts in an event trace. -/
def closeCount (t : List TxEvent) : Nat :=
  (t.filter (fun e => match e with | .closeTx _ => true | _ => false)).length

/-- The last engine interaction, if any, is a close attempt. -/
def endsWithClose (t : List TxEvent) : Bool :=
  match t.getLast? with
  | some (.closeTx _) => true
  | _ => false

/-- Scoped-acquisition discipline: every successfully opened transaction is
matched by exactly one close attempt, and when a transaction was opened the
trace ends with the close. -/
def txDisciplined (t : List TxEvent) : Bool :=
  closeCount t == openCount t && (openCount t == 0 || endsWithClose t)

/-! ### `set_active_version` and its cache -/

/-- The `Except.isOk` test as a plain boolean. -/
def resultOk {ε α : Type} : Except ε α → Bool
  | .ok _ => true
  | .error _ => false

/-- Models `set_active_version(version)`: build the query (a `TemplateDriverError`
becomes `TemplateProcessingError`), execute the write, and only after a
successful write assign `self.active_version = version`. Returns the call
outcome together with the new cached active version. -/
def setActiveVersion (cached : Option String) (version : String)
    (buildOk : Bool) (b : TxBehavior) :
    Except ClientErr Unit × Option String :=
  if !buildOk then
    (.error (.templateProcessingError
      "Failed to build query for operation set-active-version."), cached)
  else
    match executeWrite "set-active-version" b with
    | (.error e, _) => (.error e, cached)
    | (.ok _, _) => (.ok (), some version)

/-! ### Result-shape checks of the single-document reads -/

/-- The result-shape check of `graph_by_version_get`: zero documents or more
than one document is a `QueryExecutionError`; otherwise the unique document is
returned. -/
def graphByVersionGetCheck {α : Type} (docs : List α) : Except PyErr α :=
  match docs with
  | [] => .error (.client (.queryExecutionError
      "Operation graph-by-version-get returned no documents."))
  | d :: rest =>
    if rest.length + 1 > 1 then
      .error (.client (.queryExecutionError
        "Operation graph-by-version-get returned multiple documents, but expected exactly one."))
    else .ok d

/-- The result-shape check of `get_versions`. The multiple-document branch
raises `QueryExecutionError` as intended, but the zero-document branch builds
its error message from the local name `resolved_version`, which is never bound
inside `get_versions` (the message was copied from `graph_by_version_get`):
CPython raises `NameError: name 'resolved_version' is not defined` while
evaluating the f-string, before any `QueryExecutionError` is constructed. -/
def getVersionsCheck {α : Type} (docs : List α) : Except PyErr α :=
  match docs with
  | [] => .error (.nameError "resolved_version")
  | d :: rest =>
    if rest.length + 1 > 1 then
      .error (.client (.queryExecutionError
        "Operation get-versions returned multiple documents, but expected exactly one."))
    else .ok d

/-! ### Debug-gated operations -/

/-- One call on the external engine (or, for `investigation_create`, the
schema-file read that precedes the schema transaction). -/
inductive EngineCall where
  | dbContains (name : String)
  | dbCreate (name : String)
  | dbDelete (name : String)
  | fileRead (path : String)
  | tx (e : TxEvent)
deriving DecidableEq, Repr

/-- Models `_ensure_debug_allowed`: fails with `OperationIsNotAllowed` unless the
`DEBUG_DB` environment variable is set (`debugDb`). -/
def ensureDebugAllowed (debugDb : Bool) : Except ClientErr Unit :=
  if !debugDb then
    .error (.operationIsNotAllowed
      "This operation is allowed only when DEBUG_DB environment variable is set.")
  else .ok ()

/-- Models `create_database`: debug gate, then `databases.contains`, then
`databases.create` when absent; engine failures become `TypeDBClientError`. -/
def createDatabase (debugDb : Bool) (dbName : String)
    (containsOk contains createOk : Bool) :
    Except ClientErr Unit × List EngineCall :=
  match ensureDebugAllowed debugDb with
  | .error e => (.error e, [])
  | .ok _ =>
    if !containsOk then
      (.error (.typeDBClientError ("Failed to create database " ++ dbName ++ ".")),
        [.dbContains dbName])
    else if contains then (.ok (), [.dbContains dbName])
    else if createOk then (.ok (), [.dbContains dbName, .dbCreate dbName])
    else
      (.error (.typeDBClientError ("Failed to create database " ++ dbName ++ ".")),
        [.dbContains dbName, .dbCreate dbName])

/-- Models `drop_database`: debug gate, then `databases.contains`, then
`databases.delete` when present. -/
def dropDatabase (debugDb : Bool) (dbName : String)
    (containsOk contains deleteOk : Bool) :
    Except ClientErr Unit × List EngineCall :=
  match ensureDebugAllowed debugDb with
  | .error e => (.error e, [])
  | .ok _ =>
    if !containsOk then
      (.error (.typeDBClientError ("Failed to drop database " ++ dbName ++ ".")),
        [.dbContains dbName])
    else if !contains then (.ok (), [.dbContains dbName])
    else if deleteOk then (.ok (), [.dbContains dbName, .dbDelete dbName])
    else
      (.error (.typeDBClientError ("Failed to drop database " ++ dbName ++ ".")),
        [.dbContains dbName, .dbDelete dbName])

/-- Models `investigation_create`: debug gate, read the schema file, apply the schema
inside a SCHEMA transaction (failure → `QueryExecutionError`, catalog
operation not attempted), then build and execute the catalog's
`investigation-create` write. -/
def investigationCreate (debugDb : Bool) (schemaReadOk : Bool)
    (schemaTx : TxBehavior) (buildOk : Bool) (writeTx : TxBehavior) :
    Except ClientErr Unit × List EngineCall :=
  match ensureDebugAllowed debugDb with
  | .error e => (.error e, [])
  | .ok _ =>
    if !schemaReadOk then
      (.error (.typeDBClientError "Failed to read schema file."),
        [.fileRead "db/v0.1/schema"])
    else
      match executeWrite "apply-schema" schemaTx with
      | (.error _, evs) =>
        (.error (.queryExecutionError "Failed to apply schema."),
          .fileRead "db/v0.1/schema" :: evs.map .tx)
      | (.ok _, evs) =>
        if !buildOk then
          (.error (.templateProcessingError
            "Failed to build query for operation investigation-create."),
            .fileRead "db/v0.1/schema" :: evs.map .tx)
        else
          match executeWrite "investigation-create" writeTx with
          | (r, evs2) =>
            (r, .fileRead "db/v0.1/schema" :: (evs.map .tx ++ evs2.map .tx))

/-- Models `investigation_delete`: debug gate, build the query, execute the write. -/
def investigationDelete (debugDb : Bool) (buildOk : Bool) (b : TxBehavior) :
    Except ClientErr Unit × List EngineCall :=
  match ensureDebugAllowed debugDb with
  | .error e => (.error e, [])
  | .ok _ =>
    if !buildOk then
      (.error (.templateProcessingError
        "Failed to build query for operation investigation-delete."), [])
    else
      match executeWrite "investigation-delete" b with
      | (r, evs) => (r, evs.map .tx)

/-! ### Template driver (`src/typeql_template_driver.py`) -/

/-- The driver's exception hierarchy (all derive from `TemplateDriverError`). -/
inductive TemplateDriverErr where
  | specificationError (msg : String)
  | operationError (msg : String)
  | templateFileError (msg : String)
deriving DecidableEq, Repr

/-- A Python value passed as the `params` argument of `get_operation`:
`None`, a dict with string keys, or a non-mapping value such as a list, an
int or a plain string. Dict and parameter values are kept in their
stringified form, which is all template substitution observes. -/
inductive PyVal where
  | pynone
  | dict (entries : List (String × String))
  | pylist (elems : List String)
  | pyint (n : Int)
  | pystr (s : String)
deriving DecidableEq, Repr

/-- Python truthiness as used by `if params:` — `None`, empty containers, `0` and the
empty string are falsy. -/
def PyVal.truthy : PyVal → Bool
  | .pynone => false
  | .dict es => !es.isEmpty
  | .pylist es => !es.isEmpty
  | .pyint n => n != 0
  | .pystr s => !s.isEmpty

/-- Python `isinstance(params, dict)`. -/
def PyVal.isDict : PyVal → Bool
  | .dict _ => true
  | _ => false

/-- Python `type(params).__name__`. -/
def PyVal.typeName : PyVal → String
  | .pynone => "NoneType"
  | .dict _ => "dict"
  | .pylist _ => "list"
  | .pyint _ => "int"
  | .pystr _ => "str"

/-- One piece of a loaded template: literal text or a `{name}` placeholder. -/
inductive TmplPart where
  | lit (s : String)
  | hole (name : String)
deriving DecidableEq, Repr

/-- One catalog entry as stored by the loader: template file name, declared
parameter names (`set(params)` — treated as a deduplicated list) and the
loaded template content. -/
structure OpSpec where
  file : String
  params : List String
  template : List TmplPart
deriving DecidableEq, Repr

/-- Python `dst.update(src)` on insertion-ordered dicts. -/
def updateDict (dst src : List (String × String)) : List (String × String) :=
  src.foldl (fun acc p => upsert acc p.1 p.2) dst

/-- Stable ascending insertion into a sorted list of strings. -/
def insertSorted (s : String) : List String → List String
  | [] => [s]
  | t :: rest => if s ≤ t then s :: t :: rest else t :: insertSorted s rest

/-- Python `sorted(xs)` for strings (lexicographic ascending). -/
def sortStrings (l : List String) : List String :=
  l.foldr insertSorted []

/-- Python comma-join of a list of names. -/
def joinComma : List String → String
  | [] => ""
  | [s] => s
  | s :: rest => s ++ ", " ++ joinComma rest

/-- Models `template.format(**merged_params)`: substitute each placeholder; a
placeholder absent from the mapping is a `KeyError`, re-raised as
`OperationError`. -/
def renderTemplate (operation : String) (tmpl : List TmplPart)
    (env : List (String × String)) : Except TemplateDriverErr String :=
  match tmpl with
  | [] => .ok ""
  | .lit s :: rest => (renderTemplate operation rest env).map (fun r => s ++ r)
  | .hole n :: rest =>
    match lookup env n with
    | none => .error (.operationError
        ("Missing parameter \"" ++ n ++ "\" when formatting template for operation \""
          ++ operation ++ "\"."))
    | some v => (renderTemplate operation rest env).map (fun r => v ++ r)

/-- The strict-arity message of `get_operation` for missing parameters. -/
def missingMsg (operation : String) (missing : List String) : String :=
  "Operation \"" ++ operation ++ "\" is missing required parameter(s): "
    ++ joinComma missing ++ "."

/-- The strict-arity message of `get_operation` for unknown extra parameters. -/
def extraMsg (operation : String) (extra : List String) : String :=
  "Operation \"" ++ operation ++ "\" received unknown parameter(s): "
    ++ joinComma extra ++ "."

/-- Models `TypeQLTemplateDriver.get_operation(operation, params, **kwargs)`:
look the operation up; merge `params` (only when truthy, and only if it is a
dict — a truthy non-dict is an `OperationError`) with `kwargs` (kwargs win);
strict-arity validation (missing first, then extra, names sorted and
comma-joined); then render the template. -/
def getOperation (catalog : List (String × OpSpec)) (operation : String)
    (params : PyVal) (kwargs : List (String × String)) :
    Except TemplateDriverErr String :=
  match lookup catalog operation with
  | none => .error (.operationError ("Unknown operation \"" ++ operation ++ "\"."))
  | some op =>
    let step1 : Except TemplateDriverErr (List (String × String)) :=
      if params.truthy then
        match params with
        | .dict es => .ok (updateDict [] es)
        | other => .error (.operationError
            ("Parameters for operation \"" ++ operation ++ "\" must be a dict, got "
              ++ other.typeName ++ "."))
      else .ok []
    match step1 with
    | .error e => .error e
    | .ok m0 =>
      let merged := if kwargs.isEmpty then m0 else updateDict m0 kwargs
      let required := op.params.dedup
      let provided := merged.map (fun p => p.1)
      let missing := sortStrings (required.filter (fun r => !(provided.contains r)))
      let extra := sortStrings (provided.filter (fun k => !(required.contains k)))
      if !missing.isEmpty then
        .error (.operationError (missingMsg operation missing))
      else if !extra.isEmpty then
        .error (.operationError (extraMsg operation extra))
      else renderTemplate operation op.template merged

/-! ### Basic lemmas about the dict model -/

lemma hasKey_of_mem {α : Type} {l : List (String × α)} {p : String × α}
    (hp : p ∈ l) : hasKey l p.1 = true := by
  unfold hasKey
  rw [List.any_eq_true]
  exact ⟨p, hp, by simp⟩

lemma lookup_some_elim {α : Type} {l : List (String × α)} {k : String} {a : α}
    (h : lookup l k = some a) : ∃ p ∈ l, p.1 = k ∧ p.2 = a := by
  unfold lookup at h
  cases hf : l.find? (fun p => p.1 == k) with
  | none => rw [hf] at h; simp at h
  | some q =>
    rw [hf] at h
    simp at h
    exact ⟨q, List.mem_of_find?_eq_some hf,
      by simpa using List.find?_some hf, h⟩

lemma lookup_isSome_of_hasKey {α : Type} {l : List (String × α)} {k : String}
    (h : hasKey l k = true) : (lookup l k).isSome = true := by
  unfold hasKey at h
  rw [List.any_eq_true] at h
  obtain ⟨p, hp, hpk⟩ := h
  unfold lookup
  cases hf : l.find? (fun q => q.1 == k) with
  | some q => rfl
  | none =>
    have := List.find?_eq_none.mp hf p hp
    simp [hpk] at this

/-! ### Claim theorems: version resolution, cache atomicity, transactions,
debug gating, result-shape checks, renderer params argument -/

/-- C5: `_resolve_version(explicit)` returns `explicit` whenever it is
non-null regardless of the cache, returns the cached active version when
`explicit` is null and a cached value exists, fails with `ActiveVersionError`
when neither is available, and after a successful `set_active_version("v2")`
(modelled with a fully succeeding write transaction) resolving `None` yields
`"v2"` whatever was cached before. -/
theorem resolve_version_spec :
    (∀ (v : String) (cached : Option String), resolveVersion (some v) cached = .ok v)
    ∧ (∀ v : String, resolveVersion none (some v) = .ok v)
    ∧ resolveVersion none none = .error (.activeVersionError
        "Active version is not set and no explicit version was provided.")
    ∧ (∀ cached : Option String,
        resolveVersion none
          (setActiveVersion cached "v2" true ⟨true, true, true, true⟩).2 = .ok "v2") :=
  ⟨fun _ _ => rfl, fun _ => rfl, rfl, fun _ => rfl⟩

/-- C6: `set_active_version` updates the in-memory cached active version to
the requested value exactly when the call succeeds, leaves it unchanged when
the call raises, and the call succeeds exactly when the query build succeeds
and the write transaction succeeds. -/
theorem set_active_version_cache_atomic :
    ∀ (cached : Option String) (version : String) (buildOk : Bool) (b : TxBehavior),
      (setActiveVersion cached version buildOk b).2 =
        (if resultOk (setActiveVersion cached version buildOk b).1 then some version
         else cached)
      ∧ (resultOk (setActiveVersion cached version buildOk b).1 =
          (buildOk && resultOk (executeWrite "set-active-version" b).1)) := by
  intro cached version buildOk b
  obtain ⟨o, q, c, cl⟩ := b
  cases buildOk <;> cases o <;> cases q <;> cases c <;> cases cl <;>
    simp [setActiveVersion, executeWrite, resultOk]

/-- C9: every read or write helper (and the schema step of
`investigation_create`, which runs the same write-shaped lifecycle) closes the
transaction it opened on every exit path — the event trace contains exactly
one close attempt per successful open and ends with the close — and a failure
of the close itself does not change the call's outcome. -/
theorem transaction_discipline :
    ∀ (op : String) (b : TxBehavior) (c : Bool) (α : Type) (docs : List α),
      txDisciplined (executeWrite op b).2 = true
      ∧ txDisciplined (executeRead op b docs).2 = true
      ∧ (executeWrite op b).1 =
          (executeWrite op (TxBehavior.mk b.openOk b.queryOk b.commitOk c)).1
      ∧ (executeRead op b docs).1 =
          (executeRead op (TxBehavior.mk b.openOk b.queryOk b.commitOk c) docs).1 := by
  intro op b c α docs
  obtain ⟨o, q, cm, cl⟩ := b
  cases o <;> cases q <;> cases cm <;> cases cl <;> cases c <;>
    simp [executeWrite, executeRead, txDisciplined, openCount, closeCount,
      endsWithClose, List.getLast?]

/-- C7: each debug-gated method (`create_database`, `drop_database`,
`investigation_create`, `investigation_delete`) invoked with the debug flag
unset fails with `OperationIsNotAllowed` and emits no engine call (and no
schema-file read): its call trace is empty. -/
theorem debug_gate_blocks_engine_calls :
    ∀ (dbName : String) (a1 a2 a3 sOk bOk : Bool) (sTx wTx : TxBehavior),
      createDatabase false dbName a1 a2 a3 =
        (.error (.operationIsNotAllowed
          "This operation is allowed only when DEBUG_DB environment variable is set."), [])
      ∧ dropDatabase false dbName a1 a2 a3 =
        (.error (.operationIsNotAllowed
          "This operation is allowed only when DEBUG_DB environment variable is set."), [])
      ∧ investigationCreate false sOk sTx bOk wTx =
        (.error (.operationIsNotAllowed
          "This operation is allowed only when DEBUG_DB environment variable is set."), [])
      ∧ investigationDelete false bOk wTx =
        (.error (.operationIsNotAllowed
          "This operation is allowed only when DEBUG_DB environment variable is set."), []) :=
  fun _ _ _ _ _ _ _ _ => ⟨rfl, rfl, rfl, rfl⟩

/-- C3: `graph_by_version_get` fails with `QueryExecutionError` on zero
documents and on more than one document and returns the unique document
otherwise, and `get_versions` does fail with `QueryExecutionError` on more
than one document — but on zero documents `get_versions` raises `NameError`
(its error message interpolates the local name `resolved_version`, which is
unbound in that method), not the `QueryExecutionError` the claim requires. -/
theorem get_versions_zero_docs_raises_name_error :
    graphByVersionGetCheck ([] : List Nat) = .error (.client (.queryExecutionError
      "Operation graph-by-version-get returned no documents."))
    ∧ graphByVersionGetCheck [7, 8] = .error (.client (.queryExecutionError
      "Operation graph-by-version-get returned multiple documents, but expected exactly one."))
    ∧ graphByVersionGetCheck [7] = .ok 7
    ∧ getVersionsCheck [7, 8] = .error (.client (.queryExecutionError
      "Operation get-versions returned multiple documents, but expected exactly one."))
    ∧ getVersionsCheck [7] = .ok 7
    ∧ getVersionsCheck ([] : List Nat) = .error (.nameError "resolved_version") :=
  ⟨rfl, rfl, rfl, rfl, rfl, rfl⟩

/-- The one-operation catalog used in concrete renderer examples: operation
`op1` declares the single parameter `a` and its template is the placeholder
for `a`. -/
def exampleCatalog : List (String × OpSpec) :=
  [("op1", ⟨"op1.tql", ["a"], [TmplPart.hole "a"]⟩)]

/-- C8 counterexample: the `params` argument `[]` is not a mapping, yet
`get_operation` does not fail with the must-be-a-mapping `OperationError`:
since `[]` is falsy, the `isinstance` check is skipped and the call succeeds
using the keyword arguments alone. -/
theorem falsy_nonmapping_params_accepted :
    PyVal.isDict (.pylist []) = false
    ∧ getOperation exampleCatalog "op1" (.pylist []) [("a", "X")] = .ok "X" :=
  ⟨rfl, rfl⟩

/-- C8 (amended): for every known operation, a **truthy** non-mapping `params`
argument makes `get_operation` fail with the `OperationError` saying the
parameters must be a dict (falsy non-mapping values such as `[]`, `0` or `""`
are treated like an absent `params`). -/
theorem truthy_nonmapping_params_rejected :
    ∀ (catalog : List (String × OpSpec)) (operation : String) (op : OpSpec)
      (params : PyVal) (kwargs : List (String × String)),
      lookup catalog operation = some op →
      params.truthy = true → params.isDict = false →
      getOperation catalog operation params kwargs =
        .error (.operationError
          ("Parameters for operation \"" ++ operation ++ "\" must be a dict, got "
            ++ params.typeName ++ ".")) := by
  intro catalog operation op params kwargs hlk htr hnd
  unfold getOperation
  rw [hlk]
  cases params with
  | dict es => simp [PyVal.isDict] at hnd
  | pynone => simp [PyVal.truthy] at htr
  | pylist es => simp only [htr, if_true]
  | pyint n => simp only [htr, if_true]
  | pystr s => simp only [htr, if_true]

/-- C8 witness: a truthy non-mapping `params` (a non-empty list) on the
example catalog is rejected with the must-be-a-mapping error. -/
theorem truthy_nonmapping_params_rejected_check :
    getOperation exampleCatalog "op1" (.pylist ["z"]) [("a", "X")] =
      .error (.operationError
        "Parameters for operation \"op1\" must be a dict, got list.") :=
  truthy_nonmapping_params_rejected exampleCatalog "op1"
    ⟨"op1.tql", ["a"], [TmplPart.hole "a"]⟩ (.pylist ["z"]) [("a", "X")] rfl rfl rfl

/-! ### C1: diff-sync idempotence -/

/-- C1: when the persisted state already equals the desired state — the same
ids are present on both sides and every entity present on both sides agrees
on all compared fields (nodes: name, pos_x, pos_y, picture_path, description;
edges: both endpoints and description) — `update_graph` emits zero calls. -/
theorem update_graph_idempotent
    (dbNodes : List DbNode) (dbEdges : List DbEdge)
    (nodes : List NodeDTO) (edges : List EdgeDTO)
    (hN : ∀ k, hasKey (keyedBy DbNode.node_id dbNodes) k
            = hasKey (keyedBy NodeDTO.node_id nodes) k)
    (hNf : ∀ p ∈ keyedBy DbNode.node_id dbNodes,
           ∀ q ∈ keyedBy NodeDTO.node_id nodes, p.1 = q.1 →
        p.2.name = some q.2.name ∧ p.2.pos_x = q.2.pos_x ∧ p.2.pos_y = q.2.pos_y
          ∧ p.2.picture_path = q.2.picture_path ∧ p.2.description = q.2.description)
    (hE : ∀ k, hasKey (keyedBy DbEdge.edge_id dbEdges) k
            = hasKey (keyedBy EdgeDTO.edge_id edges) k)
    (hEf : ∀ p ∈ keyedBy DbEdge.edge_id dbEdges,
           ∀ q ∈ keyedBy EdgeDTO.edge_id edges, p.1 = q.1 →
        p.2.node1 = q.2.node1 ∧ p.2.node2 = q.2.node2
          ∧ p.2.description = q.2.description) :
    updateGraphTrace dbNodes dbEdges nodes edges = [] := by
  have hdel : nodeDeletePhase (keyedBy DbNode.node_id dbNodes)
      (keyedBy NodeDTO.node_id nodes) = [] := by
    unfold nodeDeletePhase
    rw [List.map_eq_nil_iff, List.filter_eq_nil_iff]
    intro p hp
    have h1 := hasKey_of_mem hp
    rw [hN] at h1
    simp [h1]
  have hcre : nodeCreatePhase (keyedBy DbNode.node_id dbNodes)
      (keyedBy NodeDTO.node_id nodes) = [] := by
    unfold nodeCreatePhase
    rw [List.map_eq_nil_iff, List.filter_eq_nil_iff]
    intro q hq
    have h1 := hasKey_of_mem hq
    rw [← hN] at h1
    simp [h1]
  have hupd : nodeUpdatePhase (keyedBy DbNode.node_id dbNodes)
      (keyedBy NodeDTO.node_id nodes) = [] := by
    unfold nodeUpdatePhase
    rw [List.filterMap_eq_nil_iff]
    intro p hp
    cases hlk : lookup (keyedBy NodeDTO.node_id nodes) p.1 with
    | none => simp
    | some dto =>
      obtain ⟨q, hq, hq1, hq2⟩ := lookup_some_elim hlk
      obtain ⟨f1, f2, f3, f4, f5⟩ := hNf p hp q hq hq1.symm
      have : nodeNeedsUpdate p.2 dto = false := by
        subst hq2
        simp [nodeNeedsUpdate, f1, f2, f3, f4, f5]
      simp [this]
  have hedel : edgeDeletePhase (keyedBy DbEdge.edge_id dbEdges)
      (keyedBy EdgeDTO.edge_id edges) = [] := by
    unfold edgeDeletePhase
    rw [List.map_eq_nil_iff, List.filter_eq_nil_iff]
    intro p hp
    have h1 := hasKey_of_mem hp
    rw [hE] at h1
    simp [h1]
  have hecre : edgeCreatePhase (keyedBy DbEdge.edge_id dbEdges)
      (keyedBy EdgeDTO.edge_id edges) = [] := by
    unfold edgeCreatePhase
    rw [List.map_eq_nil_iff, List.filter_eq_nil_iff]
    intro q hq
    have h1 := hasKey_of_mem hq
    rw [← hE] at h1
    simp [h1]
  have heupd : edgeUpdatePhase (keyedBy DbEdge.edge_id dbEdges)
      (keyedBy EdgeDTO.edge_id edges) = [] := by
    unfold edgeUpdatePhase
    rw [List.flatMap_eq_nil_iff]
    intro p hp
    cases hlk : lookup (keyedBy EdgeDTO.edge_id edges) p.1 with
    | none => simp
    | some dto =>
      obtain ⟨q, hq, hq1, hq2⟩ := lookup_some_elim hlk
      obtain ⟨f1, f2, f3⟩ := hEf p hp q hq hq1.symm
      subst hq2
      simp [edgeSyncCalls, f1, f2, f3]
  unfold updateGraphTrace
  rw [hdel, hcre, hupd, hedel, hecre, heupd]
  rfl

/-- C1 witness: a persisted graph of one node and one edge synced against an
identical desired graph emits zero calls. -/
theorem update_graph_idempotent_check :
    updateGraphTrace
      [⟨"n1", some "Alice", 3, 4, some "p.png", some "d", none⟩]
      [⟨"e1", "n1", "n1", some "rel"⟩]
      [⟨"n1", "Alice", 3, 4, some "person", some "p.png", some "d"⟩]
      [⟨"e1", "n1", "n1", some "rel"⟩] = [] :=
  update_graph_idempotent _ _ _ _ (fun _ => rfl) (by decide) (fun _ => rfl)
    (by decide)

/-! ### C2: phase ordering of the emitted calls -/

lemma rank_mem_nodeDeletePhase {dbN : List (String × DbNode)}
    {newN : List (String × NodeDTO)} {c : Call}
    (h : c ∈ nodeDeletePhase dbN newN) : rank c = 0 := by
  unfold nodeDeletePhase at h
  rw [List.mem_map] at h
  obtain ⟨p, -, rfl⟩ := h
  rfl

lemma rank_mem_nodeCreatePhase {dbN : List (String × DbNode)}
    {newN : List (String × NodeDTO)} {c : Call}
    (h : c ∈ nodeCreatePhase dbN newN) : rank c = 1 := by
  unfold nodeCreatePhase at h
  rw [List.mem_map] at h
  obtain ⟨p, -, rfl⟩ := h
  rfl

lemma rank_mem_nodeUpdatePhase {dbN : List (String × DbNode)}
    {newN : List (String × NodeDTO)} {c : Call}
    (h : c ∈ nodeUpdatePhase dbN newN) : rank c = 2 := by
  unfold nodeUpdatePhase at h
  rw [List.mem_filterMap] at h
  obtain ⟨p, -, hp⟩ := h
  cases hlk : lookup newN p.1 with
  | none => rw [hlk] at hp; simp at hp
  | some dto =>
    rw [hlk] at hp
    by_cases hu : nodeNeedsUpdate p.2 dto = true
    · simp [hu] at hp
      subst hp
      rfl
    · simp [Bool.of_not_eq_true hu] at hp

lemma rank_mem_edgeDeletePhase {dbE : List (String × DbEdge)}
    {newE : List (String × EdgeDTO)} {c : Call}
    (h : c ∈ edgeDeletePhase dbE newE) : rank c = 3 := by
  unfold edgeDeletePhase at h
  rw [List.mem_map] at h
  obtain ⟨p, -, rfl⟩ := h
  rfl

lemma rank_mem_edgeCreatePhase {dbE : List (String × DbEdge)}
    {newE : List (String × EdgeDTO)} {c : Call}
    (h : c ∈ edgeCreatePhase dbE newE) : rank c = 4 := by
  unfold edgeCreatePhase at h
  rw [List.mem_map] at h
  obtain ⟨p, -, rfl⟩ := h
  rfl

/-- Members of the edge-reconciliation loop, assuming no surviving edge has a
changed endpoint, are lightweight updates (rank 5). -/
lemma rank_mem_edgeUpdatePhase {dbE : List (String × DbEdge)}
    {newE : List (String × EdgeDTO)} {c : Call}
    (hEnd : ∀ p ∈ dbE, ∀ q ∈ newE, p.1 = q.1 →
      p.2.node1 = q.2.node1 ∧ p.2.node2 = q.2.node2)
    (h : c ∈ edgeUpdatePhase dbE newE) : rank c = 5 := by
  unfold edgeUpdatePhase at h
  rw [List.mem_flatMap] at h
  obtain ⟨p, hp, hc⟩ := h
  cases hlk : lookup newE p.1 with
  | none => rw [hlk] at hc; simp at hc
  | some dto =>
    rw [hlk] at hc
    obtain ⟨q, hq, hq1, hq2⟩ := lookup_some_elim hlk
    obtain ⟨f1, f2⟩ := hEnd p hp q hq hq1.symm
    subst hq2
    unfold edgeSyncCalls at hc
    simp only [f1, f2, bne_self_eq_false, Bool.or_self, if_false] at hc
    by_cases hd : p.2.description != q.2.description
    · simp [hd] at hc
      subst hc
      rfl
    · simp [Bool.of_not_eq_true hd] at hc

lemma phaseOrdered_append {l₁ l₂ : List Call} {r : Nat}
    (h₁ : ∀ c ∈ l₁, rank c = r) (h₂ : ∀ c ∈ l₂, r ≤ rank c)
    (p₂ : phaseOrdered l₂) : phaseOrdered (l₁ ++ l₂) := by
  unfold phaseOrdered
  rw [List.pairwise_append]
  refine ⟨List.pairwise_of_forall_mem_list (fun a ha b hb => ?_), p₂,
    fun a ha b hb => ?_⟩
  · rw [h₁ a ha, h₁ b hb]
  · rw [h₁ a ha]; exact h₂ b hb

lemma rank_lowerBound_append {l₁ l₂ : List Call} {n : Nat}
    (h₁ : ∀ c ∈ l₁, n ≤ rank c) (h₂ : ∀ c ∈ l₂, n ≤ rank c) :
    ∀ c ∈ l₁ ++ l₂, n ≤ rank c := by
  intro c hc
  rcases List.mem_append.1 hc with h | h
  · exact h₁ c h
  · exact h₂ c h

/-- C2 counterexample: the claimed by-kind ordering "all edge deletions, then
all edge creations, then all edge updates" fails. Persisted edges:
`e1 = (a, b)`; desired edges: `e1 = (a, c)` (endpoint changed) and `e2`
(new). The trace is `[createEdge e2, deleteEdge e1, createEdge e1]`: an edge
deletion occurs after an edge creation, because a surviving edge whose
endpoint changed is deleted and recreated during the edge-update loop. -/
theorem update_graph_phase_order_violation :
    updateGraphTrace [] [⟨"e1", "a", "b", some "d"⟩] []
        [⟨"e1", "a", "c", some "d"⟩, ⟨"e2", "a", "b", some "x"⟩]
      = [Call.edgeCreate "e2" "a" "b" (some "x"), Call.edgeDelete "e1",
         Call.edgeCreate "e1" "a" "c" (some "d")]
    ∧ ¬ phaseOrdered (updateGraphTrace [] [⟨"e1", "a", "b", some "d"⟩] []
        [⟨"e1", "a", "c", some "d"⟩, ⟨"e2", "a", "b", some "x"⟩]) := by
  constructor
  · rfl
  · decide

/-- C2 (amended): the six loops run in the claimed order and, except for the
edge-update loop, emit only their own kind of call; the edge-update loop
additionally deletes and recreates a surviving edge whose endpoints changed.
Hence whenever no edge present on both sides has a changed endpoint, the full
by-kind ordering holds: node deletions, node creations, node updates, edge
deletions, edge creations, edge updates, with no call of an earlier kind after
a call of a later kind. -/
theorem update_graph_phase_ordered
    (dbNodes : List DbNode) (dbEdges : List DbEdge)
    (nodes : List NodeDTO) (edges : List EdgeDTO)
    (hEnd : ∀ p ∈ keyedBy DbEdge.edge_id dbEdges,
            ∀ q ∈ keyedBy EdgeDTO.edge_id edges, p.1 = q.1 →
        p.2.node1 = q.2.node1 ∧ p.2.node2 = q.2.node2) :
    phaseOrdered (updateGraphTrace dbNodes dbEdges nodes edges) := by
  unfold updateGraphTrace
  have r1 : ∀ c ∈ nodeDeletePhase (keyedBy DbNode.node_id dbNodes)
      (keyedBy NodeDTO.node_id nodes), rank c = 0 :=
    fun _ hc => rank_mem_nodeDeletePhase hc
  have r2 : ∀ c ∈ nodeCreatePhase (keyedBy DbNode.node_id dbNodes)
      (keyedBy NodeDTO.node_id nodes), rank c = 1 :=
    fun _ hc => rank_mem_nodeCreatePhase hc
  have r3 : ∀ c ∈ nodeUpdatePhase (keyedBy DbNode.node_id dbNodes)
      (keyedBy NodeDTO.node_id nodes), rank c = 2 :=
    fun _ hc => rank_mem_nodeUpdatePhase hc
  have r4 : ∀ c ∈ edgeDeletePhase (keyedBy DbEdge.edge_id dbEdges)
      (keyedBy EdgeDTO.edge_id edges), rank c = 3 :=
    fun _ hc => rank_mem_edgeDeletePhase hc
  have r5 : ∀ c ∈ edgeCreatePhase (keyedBy DbEdge.edge_id dbEdges)
      (keyedBy EdgeDTO.edge_id edges), rank c = 4 :=
    fun _ hc => rank_mem_edgeCreatePhase hc
  have r6 : ∀ c ∈ edgeUpdatePhase (keyedBy DbEdge.edge_id dbEdges)
      (keyedBy EdgeDTO.edge_id edges), rank c = 5 :=
    fun _ hc => rank_mem_edgeUpdatePhase hEnd hc
  have p6 : phaseOrdered (edgeUpdatePhase (keyedBy DbEdge.edge_id dbEdges)
      (keyedBy EdgeDTO.edge_id edges)) :=
    List.pairwise_of_forall_mem_list (fun a ha b hb => by rw [r6 a ha, r6 b hb])
  have p56 := phaseOrdered_append r5 (fun c hc => by rw [r6 c hc]; exact Nat.le_succ 4) p6
  have lb56 := rank_lowerBound_append (n := 4)
    (fun c hc => le_of_eq (r5 c hc).symm) (fun c hc => by rw [r6 c hc]; omega)
  have p456 := phaseOrdered_append r4 (fun c hc => by have := lb56 c hc; omega) p56
  have lb456 := rank_lowerBound_append (n := 3)
    (fun c hc => le_of_eq (r4 c hc).symm) (fun c hc => by have := lb56 c hc; omega)
  have p3456 := phaseOrdered_append r3 (fun c hc => by have := lb456 c hc; omega) p456
  have lb3456 := rank_lowerBound_append (n := 2)
    (fun c hc => le_of_eq (r3 c hc).symm) (fun c hc => by have := lb456 c hc; omega)
  have p23456 := phaseOrdered_append r2 (fun c hc => by have := lb3456 c hc; omega) p3456
  have lb23456 := rank_lowerBound_append (n := 1)
    (fun c hc => le_of_eq (r2 c hc).symm) (fun c hc => by have := lb3456 c hc; omega)
  have p123456 := phaseOrdered_append r1
    (fun c hc => by have := lb23456 c hc; omega) p23456
  simpa [List.append_assoc] using p123456

/-- C2 witness: a sync touching every phase (one node deleted, one created,
one updated, one edge deleted, one created, one description-updated) with no
endpoint change produces a by-kind phase-ordered trace. -/
theorem update_graph_phase_ordered_check :
    phaseOrdered (updateGraphTrace
      [⟨"n1", some "A", 0, 0, none, none, none⟩,
       ⟨"n2", some "B", 1, 1, none, none, none⟩]
      [⟨"e1", "n1", "n2", some "d"⟩, ⟨"e2", "n1", "n2", some "d"⟩]
      [⟨"n2", "B2", 1, 1, none, none, none⟩, ⟨"n3", "C", 2, 2, none, none, none⟩]
      [⟨"e2", "n1", "n2", some "d2"⟩, ⟨"e3", "n2", "n3", some "d"⟩]) :=
  update_graph_phase_ordered _ _ _ _ (by decide)

/-! ### C4: strict-arity parameter validation -/

lemma insertSorted_ne_nil (s : String) (l : List String) : insertSorted s l ≠ [] := by
  cases l with
  | nil => simp [insertSorted]
  | cons t rest => unfold insertSorted; split <;> simp

lemma sortStrings_eq_nil_iff {l : List String} : sortStrings l = [] ↔ l = [] := by
  cases l with
  | nil => exact ⟨fun _ => rfl, fun _ => rfl⟩
  | cons x xs =>
    constructor
    · intro h; exact absurd h (insertSorted_ne_nil x (sortStrings xs))
    · intro h; exact absurd h (List.cons_ne_nil x xs)

/-- The merged parameter mapping of `get_operation` for a dict `params`
argument: the dict entries, then the keyword arguments on top. -/
def mergedOf (es kwargs : List (String × String)) : List (String × String) :=
  updateDict (updateDict [] es) kwargs

/-- Keys of the merged mapping (`provided`). -/
def providedOf (es kwargs : List (String × String)) : List String :=
  (mergedOf es kwargs).map (fun p => p.1)

/-- `sorted(required - provided)`. -/
def missingOf (op : OpSpec) (es kwargs : List (String × String)) : List String :=
  sortStrings (op.params.dedup.filter (fun r => !((providedOf es kwargs).contains r)))

/-- `sorted(provided - required)`. -/
def extraOf (op : OpSpec) (es kwargs : List (String × String)) : List String :=
  sortStrings ((providedOf es kwargs).filter (fun k => !(op.params.dedup.contains k)))

/-- C4: for a known operation and a dict `params` argument merged with the
keyword arguments, `get_operation` fails with the `OperationError` listing the
missing names (sorted, comma-joined) whenever some required name is not
provided; otherwise fails with the `OperationError` listing the extra names
whenever some provided name is not required; and rendering proceeds exactly
when neither happens, in which case the provided names coincide with the
operation's declared parameter names. -/
theorem get_operation_strict_arity
    (catalog : List (String × OpSpec)) (operation : String) (op : OpSpec)
    (es kwargs : List (String × String))
    (hlk : lookup catalog operation = some op) :
    (missingOf op es kwargs ≠ [] →
      getOperation catalog operation (.dict es) kwargs =
        .error (.operationError (missingMsg operation (missingOf op es kwargs))))
    ∧ (missingOf op es kwargs = [] → extraOf op es kwargs ≠ [] →
      getOperation catalog operation (.dict es) kwargs =
        .error (.operationError (extraMsg operation (extraOf op es kwargs))))
    ∧ (missingOf op es kwargs = [] → extraOf op es kwargs = [] →
      getOperation catalog operation (.dict es) kwargs =
        renderTemplate operation op.template (mergedOf es kwargs)
      ∧ ∀ k, k ∈ providedOf es kwargs ↔ k ∈ op.params) := by
  have hbody : getOperation catalog operation (.dict es) kwargs =
      (if !(missingOf op es kwargs).isEmpty then
        .error (.operationError (missingMsg operation (missingOf op es kwargs)))
      else if !(extraOf op es kwargs).isEmpty then
        .error (.operationError (extraMsg operation (extraOf op es kwargs)))
      else renderTemplate operation op.template (mergedOf es kwargs)) := by
    unfold getOperation
    rw [hlk]
    cases es <;> cases kwargs <;> rfl
  refine ⟨fun hm => ?_, fun hm he => ?_, fun hm he => ⟨?_, fun k => ?_⟩⟩
  · have h1 : (missingOf op es kwargs).isEmpty = false := List.isEmpty_eq_false.mpr hm
    rw [hbody]
    simp [h1]
  · have h2 : (extraOf op es kwargs).isEmpty = false := List.isEmpty_eq_false.mpr he
    rw [hbody]
    simp [hm, h2]
  · rw [hbody]
    simp [hm, he]
  · unfold missingOf at hm
    unfold extraOf at he
    rw [sortStrings_eq_nil_iff, List.filter_eq_nil_iff] at hm he
    constructor
    · intro hk
      have := he k hk
      rw [Bool.not_eq_true, Bool.not_eq_false'] at this
      rw [← List.mem_dedup]
      exact List.elem_iff.mp this
    · intro hk
      have := hm k (List.mem_dedup.mpr hk)
      rw [Bool.not_eq_true, Bool.not_eq_false'] at this
      exact List.elem_iff.mp this

/-- C4 witness: rendering `op1` (which requires parameter `a`) with an empty
parameter mapping fails with the `OperationError` naming `a` as missing. -/
theorem get_operation_strict_arity_check :
    getOperation exampleCatalog "op1" (.dict []) [] =
      .error (.operationError
        "Operation \"op1\" is missing required parameter(s): a.") :=
  (get_operation_strict_arity exampleCatalog "op1"
    ⟨"op1.tql", ["a"], [TmplPart.hole "a"]⟩ [] [] rfl).1 (by decide)

/-! ### C10: `node_type` never participates in synchronization -/

/-- Replace only the `node_type` field of a persisted node. -/
def DbNode.withType (t : Option String) (n : DbNode) : DbNode :=
  ⟨n.node_id, n.name, n.pos_x, n.pos_y, n.picture_path, n.description, t⟩

/-- Replace only the `node_type` field of a desired node. -/
def NodeDTO.withType (t : Option String) (n : NodeDTO) : NodeDTO :=
  ⟨n.node_id, n.name, n.pos_x, n.pos_y, t, n.picture_path, n.description⟩

/-- The node id targeted by a call, when the call is a node call. -/
def nodeCallId : Call → Option String
  | .nodeDelete i => some i
  | .nodeCreate i _ _ _ _ _ => some i
  | .nodeUpdate i _ _ _ _ _ => some i
  | .edgeDelete _ => none
  | .edgeCreate _ _ _ _ => none
  | .edgeUpdate _ _ => none

/-- The lift of a `node_type` rewrite to keyed persisted-node pairs. -/
def liftDb (f : DbNode → Option String) : String × DbNode → String × DbNode :=
  fun p => (p.1, DbNode.withType (f p.2) p.2)

/-- The lift of a `node_type` rewrite to keyed desired-node pairs. -/
def liftDto (g : NodeDTO → Option String) : String × NodeDTO → String × NodeDTO :=
  fun p => (p.1, NodeDTO.withType (g p.2) p.2)

lemma keyedBy_liftDb (f : DbNode → Option String) (xs : List DbNode) :
    keyedBy DbNode.node_id (xs.map (fun n => DbNode.withType (f n) n))
      = (keyedBy DbNode.node_id xs).map (liftDb f) := by
  unfold keyedBy
  suffices H : ∀ acc : List (String × DbNode),
      (xs.map (fun n => DbNode.withType (f n) n)).foldl
          (fun a x => upsert a x.node_id x) (acc.map (liftDb f))
        = (xs.foldl (fun a x => upsert a x.node_id x) acc).map (liftDb f) by
    simpa using H []
  induction xs with
  | nil => intro acc; rfl
  | cons x xs ih =>
    intro acc
    simp only [List.map_cons, List.foldl_cons]
    rw [show upsert (acc.map (liftDb f))
        (DbNode.withType (f x) x).node_id (DbNode.withType (f x) x)
      = (upsert acc x.node_id x).map (liftDb f) from ?_]
    · exact ih _
    · unfold upsert liftDb
      rw [List.any_map]
      have hid : (DbNode.withType (f x) x).node_id = x.node_id := rfl
      rw [hid]
      have hcomp : ((fun p : String × DbNode => p.1 == x.node_id)
          ∘ fun p : String × DbNode => (p.1, DbNode.withType (f p.2) p.2))
          = fun p : String × DbNode => p.1 == x.node_id := rfl
      rw [hcomp]
      by_cases hany : (acc.any fun p => p.1 == x.node_id) = true
      · rw [if_pos hany, if_pos hany, List.map_map, List.map_map]
        apply List.map_eq_map_iff.mpr
        intro p hp
        by_cases hpk : (p.1 == x.node_id) = true <;> simp [Function.comp, hpk]
      · rw [if_neg hany, if_neg hany]
        simp

lemma keyedBy_liftDto (g : NodeDTO → Option String) (xs : List NodeDTO) :
    keyedBy NodeDTO.node_id (xs.map (fun n => NodeDTO.withType (g n) n))
      = (keyedBy NodeDTO.node_id xs).map (liftDto g) := by
  unfold keyedBy
  suffices H : ∀ acc : List (String × NodeDTO),
      (xs.map (fun n => NodeDTO.withType (g n) n)).foldl
          (fun a x => upsert a x.node_id x) (acc.map (liftDto g))
        = (xs.foldl (fun a x => upsert a x.node_id x) acc).map (liftDto g) by
    simpa using H []
  induction xs with
  | nil => intro acc; rfl
  | cons x xs ih =>
    intro acc
    simp only [List.map_cons, List.foldl_cons]
    rw [show upsert (acc.map (liftDto g))
        (NodeDTO.withType (g x) x).node_id (NodeDTO.withType (g x) x)
      = (upsert acc x.node_id x).map (liftDto g) from ?_]
    · exact ih _
    · unfold upsert liftDto
      rw [List.any_map]
      have hid : (NodeDTO.withType (g x) x).node_id = x.node_id := rfl
      rw [hid]
      have hcomp : ((fun p : String × NodeDTO => p.1 == x.node_id)
          ∘ fun p : String × NodeDTO => (p.1, NodeDTO.withType (g p.2) p.2))
          = fun p : String × NodeDTO => p.1 == x.node_id := rfl
      rw [hcomp]
      by_cases hany : (acc.any fun p => p.1 == x.node_id) = true
      · rw [if_pos hany, if_pos hany, List.map_map, List.map_map]
        apply List.map_eq_map_iff.mpr
        intro p hp
        by_cases hpk : (p.1 == x.node_id) = true <;> simp [Function.comp, hpk]
      · rw [if_neg hany, if_neg hany]
        simp

lemma hasKey_liftDb (f : DbNode → Option String) (l : List (String × DbNode))
    (k : String) : hasKey (l.map (liftDb f)) k = hasKey l k := by
  unfold hasKey liftDb
  rw [List.any_map]
  rfl

lemma hasKey_liftDto (g : NodeDTO → Option String) (l : List (String × NodeDTO))
    (k : String) : hasKey (l.map (liftDto g)) k = hasKey l k := by
  unfold hasKey liftDto
  rw [List.any_map]
  rfl

lemma lookup_liftDto (g : NodeDTO → Option String) (l : List (String × NodeDTO))
    (k : String) :
    lookup (l.map (liftDto g)) k
      = (lookup l k).map (fun n => NodeDTO.withType (g n) n) := by
  unfold lookup liftDto
  rw [List.find?_map]
  have hcomp : ((fun p : String × NodeDTO => p.1 == k)
      ∘ fun p : String × NodeDTO => (p.1, NodeDTO.withType (g p.2) p.2))
      = fun p : String × NodeDTO => p.1 == k := rfl
  rw [hcomp]
  cases l.find? (fun p => p.1 == k) <;> rfl

lemma nodeDeletePhase_lift (f : DbNode → Option String) (g : NodeDTO → Option String)
    (dbN : List (String × DbNode)) (newN : List (String × NodeDTO)) :
    nodeDeletePhase (dbN.map (liftDb f)) (newN.map (liftDto g))
      = nodeDeletePhase dbN newN := by
  unfold nodeDeletePhase
  have hpred : (fun p : String × DbNode => !(hasKey (newN.map (liftDto g)) p.1))
      = fun p : String × DbNode => !(hasKey newN p.1) := by
    funext p
    rw [hasKey_liftDto]
  rw [hpred, List.filter_map, List.map_map]
  rfl

lemma nodeCreatePhase_lift (f : DbNode → Option String) (g : NodeDTO → Option String)
    (dbN : List (String × DbNode)) (newN : List (String × NodeDTO)) :
    nodeCreatePhase (dbN.map (liftDb f)) (newN.map (liftDto g))
      = nodeCreatePhase dbN newN := by
  unfold nodeCreatePhase
  have hpred : (fun p : String × NodeDTO => !(hasKey (dbN.map (liftDb f)) p.1))
      = fun p : String × NodeDTO => !(hasKey dbN p.1) := by
    funext p
    rw [hasKey_liftDb]
  rw [hpred, List.filter_map, List.map_map]
  rfl

lemma nodeUpdatePhase_lift (f : DbNode → Option String) (g : NodeDTO → Option String)
    (dbN : List (String × DbNode)) (newN : List (String × NodeDTO)) :
    nodeUpdatePhase (dbN.map (liftDb f)) (newN.map (liftDto g))
      = nodeUpdatePhase dbN newN := by
  unfold nodeUpdatePhase
  rw [List.filterMap_map]
  apply List.filterMap_congr
  intro p hp
  show (match lookup (newN.map (liftDto g)) (liftDb f p).1 with
    | none => none
    | some dto =>
      if nodeNeedsUpdate (liftDb f p).2 dto then
        some (Call.nodeUpdate (liftDb f p).1 dto.name dto.pos_x dto.pos_y
          dto.picture_path dto.description)
      else none) = _
  have h1 : (liftDb f p).1 = p.1 := rfl
  rw [h1, lookup_liftDto]
  cases lookup newN p.1 <;> rfl

lemma nodeCallId_edgeSyncCalls {k : String} {dbe : DbEdge} {dto : EdgeDTO}
    {c : Call} (h : c ∈ edgeSyncCalls k dbe dto) : nodeCallId c = none := by
  unfold edgeSyncCalls at h
  by_cases h1 : (dbe.node1 != dto.node1 || dbe.node2 != dto.node2) = true
  · rw [if_pos h1] at h
    simp at h
    rcases h with rfl | rfl <;> rfl
  · rw [if_neg h1] at h
    by_cases h2 : (dbe.description != dto.description) = true
    · rw [if_pos h2] at h
      simp at h
      subst h
      rfl
    · rw [if_neg h2] at h
      simp at h

/-- C10: the `node_type` field never participates in synchronization.
(1) Changing `node_type` arbitrarily on every persisted and every desired
node leaves the emitted call sequence unchanged — in particular `node_create`
transmits no `node_type` and a `node_type`-only change is silently dropped.
(2) For an id present on both sides whose compared fields (name, pos_x,
pos_y, picture_path, description) agree, no node call targeting that id is
emitted, whatever the `node_type` values are. -/
theorem node_type_never_synced
    (dbNodes : List DbNode) (dbEdges : List DbEdge)
    (nodes : List NodeDTO) (edges : List EdgeDTO) :
    (∀ (f : DbNode → Option String) (g : NodeDTO → Option String),
      updateGraphTrace (dbNodes.map (fun n => DbNode.withType (f n) n)) dbEdges
          (nodes.map (fun n => NodeDTO.withType (g n) n)) edges
        = updateGraphTrace dbNodes dbEdges nodes edges)
    ∧ (∀ nid : String,
        hasKey (keyedBy DbNode.node_id dbNodes) nid = true →
        hasKey (keyedBy NodeDTO.node_id nodes) nid = true →
        (∀ p ∈ keyedBy DbNode.node_id dbNodes, p.1 = nid →
         ∀ q ∈ keyedBy NodeDTO.node_id nodes, q.1 = nid →
          p.2.name = some q.2.name ∧ p.2.pos_x = q.2.pos_x ∧ p.2.pos_y = q.2.pos_y
            ∧ p.2.picture_path = q.2.picture_path
            ∧ p.2.description = q.2.description) →
        ∀ c ∈ updateGraphTrace dbNodes dbEdges nodes edges,
          nodeCallId c ≠ some nid) := by
  constructor
  · intro f g
    unfold updateGraphTrace
    rw [keyedBy_liftDb f dbNodes, keyedBy_liftDto g nodes,
      nodeDeletePhase_lift, nodeCreatePhase_lift, nodeUpdatePhase_lift]
  · intro nid hdb hnew hfields c hc hcid
    unfold updateGraphTrace at hc
    simp only [List.mem_append] at hc
    rcases hc with ((((h1 | h2) | h3) | h4) | h5) | h6
    · unfold nodeDeletePhase at h1
      rw [List.mem_map] at h1
      obtain ⟨p, hp, rfl⟩ := h1
      rw [List.mem_filter] at hp
      simp only [nodeCallId, Option.some_inj] at hcid
      rw [hcid] at hp
      rw [hnew] at hp
      simp at hp
    · unfold nodeCreatePhase at h2
      rw [List.mem_map] at h2
      obtain ⟨p, hp, rfl⟩ := h2
      rw [List.mem_filter] at hp
      simp only [nodeCallId, Option.some_inj] at hcid
      rw [hcid] at hp
      rw [hdb] at hp
      simp at hp
    · unfold nodeUpdatePhase at h3
      rw [List.mem_filterMap] at h3
      obtain ⟨p, hp, hpc⟩ := h3
      cases hlk : lookup (keyedBy NodeDTO.node_id nodes) p.1 with
      | none => rw [hlk] at hpc; simp at hpc
      | some dto =>
        rw [hlk] at hpc
        by_cases hu : nodeNeedsUpdate p.2 dto = true
        · simp only [hu, if_true, Option.some_inj] at hpc
          subst hpc
          simp only [nodeCallId, Option.some_inj] at hcid
          obtain ⟨q, hq, hq1, hq2⟩ := lookup_some_elim hlk
          obtain ⟨f1, f2, f3, f4, f5⟩ :=
            hfields p hp hcid q hq (hq1.trans hcid)
          subst hq2
          simp [nodeNeedsUpdate, f1, f2, f3, f4, f5] at hu
        · simp [Bool.of_not_eq_true hu] at hpc
    · unfold edgeDeletePhase at h4
      rw [List.mem_map] at h4
      obtain ⟨p, -, rfl⟩ := h4
      simp [nodeCallId] at hcid
    · unfold edgeCreatePhase at h5
      rw [List.mem_map] at h5
      obtain ⟨p, -, rfl⟩ := h5
      simp [nodeCallId] at hcid
    · unfold edgeUpdatePhase at h6
      rw [List.mem_flatMap] at h6
      obtain ⟨p, -, hpc⟩ := h6
      cases hlk : lookup (keyedBy EdgeDTO.edge_id edges) p.1 with
      | none => rw [hlk] at hpc; simp at hpc
      | some dto =>
        rw [hlk] at hpc
        rw [nodeCallId_edgeSyncCalls hpc] at hcid
        exact Option.noConfusion hcid

/-- C10 witness: changing only `node_type` on both sides leaves the trace
unchanged, and a node agreeing on all compared fields (here `n1`) is not the
target of any emitted node call even though another node's update is
emitted. -/
theorem node_type_never_synced_check :
    updateGraphTrace [⟨"n1", some "A", 0, 0, none, none, some "t1"⟩] []
        [⟨"n1", "A", 0, 0, some "t2", none, none⟩] []
      = updateGraphTrace [⟨"n1", some "A", 0, 0, none, none, none⟩] []
        [⟨"n1", "A", 0, 0, none, none, none⟩] []
    ∧ nodeCallId (Call.nodeUpdate "n2" "B2" 1 1 none none) ≠ some "n1" := by
  constructor
  · exact (node_type_never_synced [⟨"n1", some "A", 0, 0, none, none, none⟩] []
      [⟨"n1", "A", 0, 0, none, none, none⟩] []).1
      (fun _ => some "t1") (fun _ => some "t2")
  · exact (node_type_never_synced
      [⟨"n1", some "A", 0, 0, none, none, none⟩,
       ⟨"n2", some "B", 1, 1, none, none, none⟩] []
      [⟨"n1", "A", 0, 0, some "T", none, none⟩,
       ⟨"n2", "B2", 1, 1, none, none, none⟩] []).2
      "n1" rfl rfl (by decide) (Call.nodeUpdate "n2" "B2" 1 1 none none) (by decide)

end IBGraph
